import Mathlib

/-!
# Math Dungeon battle core — shallow embedding

Shallow embedding of the Math Dungeon battle engine, translated from the
repository's source (the battle code lives in the code blocks of
`docs/ALGORITHMS.md`: `CharacterStats`, `BattleManager.submitAnswer`,
`BattleManager.enemyTurn`, `figureOutHowMuchDamageTheBossDoes`, the
difficulty table, and the Attack-System damage formula) and from
`src/game/Visualization/NumberLine.js` (`binarySearchGrade`).

JavaScript numbers are modelled as exact rationals (`ℚ`) with `Math.floor`
as `Int.floor`; integer-valued quantities are `ℤ`.  External collaborators
(answer validation, the random variance roll) enter as parameters: each
battle operation takes the validator's verdict (`isCorrect : Bool`) and the
sampled variance explicitly, which makes the operations pure functions on a
battle state.  `localStorage` writes by `save()` are recorded in an
append-only `saveLog` trace.
-/

namespace MathDungeon

/-- Combatant statistics, after `CharacterStats` in
`src/game/Characters/CharacterStats.js` (quoted in `docs/ALGORITHMS.md`).
`weaponDamageBonus` stands for `equippedWeapon.damageBonus`. -/
structure CharacterStats where
  maxHP : ℤ
  currentHP : ℤ
  attack : ℤ
  defense : ℤ
  level : ℤ
  experience : ℤ
  experienceToNextLevel : ℤ
  gold : ℤ
  weaponDamageBonus : ℤ
deriving DecidableEq

/-- Source `CharacterStats.takeDamage(damage)`:
`actualDamage = Math.max(1, Math.floor(damage))`;
`currentHP = Math.max(0, currentHP - actualDamage)`; returns the pair of the
mutated stats and the returned `actualDamage`. -/
def takeDamage (s : CharacterStats) (damage : ℚ) : CharacterStats × ℤ :=
  let actualDamage : ℤ := max 1 ⌊damage⌋
  ({ s with currentHP := max 0 (s.currentHP - actualDamage) }, actualDamage)

/-- Source `CharacterStats.isAlive()`: `currentHP > 0`. -/
def isAlive (s : CharacterStats) : Bool :=
  decide (0 < s.currentHP)

/-- Modelled from the spec: `AttackSystem.applyDamage` is not among the
source files (only its callers in `BattleManager` and the stat mutation
`CharacterStats.takeDamage` are).  Per spec §4.1 it applies the damage to
the target's stat block and returns alive-after-hit; the mutation itself is
the source's `takeDamage`, the alive test the source's `isAlive`. -/
def applyDamage (target : CharacterStats) (amount : ℚ) : CharacterStats × Bool :=
  ((takeDamage target amount).1, isAlive (takeDamage target amount).1)

/-- Source `CharacterStats.levelUp()`: `level++`; `maxHP = floor(maxHP * 1.2)`;
`currentHP += (maxHP - oldMaxHP)`; `attack = floor(attack * 1.15)`;
`defense = floor(defense * 1.1)`;
`experienceToNextLevel = floor(experienceToNextLevel * 1.5)`. -/
def levelUp (s : CharacterStats) : CharacterStats :=
  let oldMaxHP := s.maxHP
  let newMaxHP : ℤ := ⌊(s.maxHP : ℚ) * 1.2⌋
  { s with
    level := s.level + 1
    maxHP := newMaxHP
    currentHP := s.currentHP + (newMaxHP - oldMaxHP)
    attack := ⌊(s.attack : ℚ) * 1.15⌋
    defense := ⌊(s.defense : ℚ) * 1.1⌋
    experienceToNextLevel := ⌊(s.experienceToNextLevel : ℚ) * 1.5⌋ }

/-- The `while (experience >= experienceToNextLevel)` loop of
`CharacterStats.addExperience`, with an explicit fuel so the function is
total in Lean: each executed iteration subtracts `experienceToNextLevel`
from `experience` and applies `levelUp`; the Boolean records whether at
least one iteration ran.  Whenever `experienceToNextLevel ≥ 1` (the
stat-block invariant) a fuel of `experience.toNat + 1` is enough for the
loop to run to completion, which `addExperience_post` proves. -/
def addExpLoop : ℕ → CharacterStats → Bool → CharacterStats × Bool
  | 0, s, leveledUp => (s, leveledUp)
  | fuel + 1, s, leveledUp =>
    if s.experienceToNextLevel ≤ s.experience then
      addExpLoop fuel (levelUp { s with experience := s.experience - s.experienceToNextLevel }) true
    else
      (s, leveledUp)

/-- Source `CharacterStats.addExperience(exp)`: `experience += exp`, then the
level-up loop; returns the mutated stats and the `leveledUp` Boolean. -/
def addExperience (s : CharacterStats) (exp : ℤ) : CharacterStats × Bool :=
  addExpLoop ((s.experience + exp).toNat + 1) { s with experience := s.experience + exp } false

/-- The Attack-System damage formula (`docs/ALGORITHMS.md`, "Damage
Calculation Algorithm"): `baseDamage = attackerAttack + weaponBonus`, halved
on a wrong answer; `totalDamage = baseDamage + variance`;
`defensePenalty = defenderDefense × 0.5`;
`finalDamage = max(1, totalDamage - defensePenalty)`.  The uniform random
`variance ∈ [0,5]` is taken as a parameter.  There is no rounding in this
formula, so the value can be a half-integer. -/
def calculateDamage (attack weaponBonus defense : ℤ) (wasCorrect : Bool) (variance : ℤ) : ℚ :=
  let baseDamage : ℚ := if wasCorrect then ((attack + weaponBonus : ℤ) : ℚ)
    else ((attack + weaponBonus : ℤ) : ℚ) * 0.5
  let totalDamage : ℚ := baseDamage + (variance : ℚ)
  let defensePenalty : ℚ := (defense : ℚ) * 0.5
  max 1 (totalDamage - defensePenalty)

/-- Source `BattleManager.figureOutHowMuchDamageTheBossDoes(bossNormalDamage,
heroLevel, heroMaxHP)` (`docs/ALGORITHMS.md` lines 581–593): level scaling
`1 + max(0, heroLevel - 1) * 0.05`, then
`max(1, floor(min(boostedDamage, heroMaxHP * 0.20)))`. -/
def figureOutHowMuchDamageTheBossDoes (bossNormalDamage : ℚ) (heroLevel heroMaxHP : ℤ) : ℤ :=
  let levelsAboveOne : ℤ := max 0 (heroLevel - 1)
  let damageMultiplier : ℚ := 1 + (levelsAboveOne : ℚ) * 0.05
  let boostedDamage : ℚ := bossNormalDamage * damageMultiplier
  let maxAllowedDamage : ℚ := (heroMaxHP : ℚ) * 0.20
  max 1 ⌊min boostedDamage maxAllowedDamage⌋

/-- One entry of `GAME_DIFFICULTY_SETTINGS` in `BattleManager.js`. -/
structure DifficultySettings where
  bossHealthMultiplier : ℚ
  bossAttackMultiplier : ℚ
  playerDamageMultiplier : ℚ
  experienceMultiplier : ℚ
  wrongAnswerPenalty : ℚ
deriving DecidableEq

/-- Profile `GAME_DIFFICULTY_SETTINGS.easy`. -/
def easySettings : DifficultySettings :=
  { bossHealthMultiplier := 0.6, bossAttackMultiplier := 0.5,
    playerDamageMultiplier := 1.5, experienceMultiplier := 0.8,
    wrongAnswerPenalty := 0.3 }

/-- Profile `GAME_DIFFICULTY_SETTINGS.medium`. -/
def mediumSettings : DifficultySettings :=
  { bossHealthMultiplier := 1.0, bossAttackMultiplier := 1.0,
    playerDamageMultiplier := 1.0, experienceMultiplier := 1.2,
    wrongAnswerPenalty := 0.5 }

/-- Profile `GAME_DIFFICULTY_SETTINGS.hard`. -/
def hardSettings : DifficultySettings :=
  { bossHealthMultiplier := 1.5, bossAttackMultiplier := 1.3,
    playerDamageMultiplier := 0.8, experienceMultiplier := 2.5,
    wrongAnswerPenalty := 0.3 }

/-- Profile `GAME_DIFFICULTY_SETTINGS.nightmare`. -/
def nightmareSettings : DifficultySettings :=
  { bossHealthMultiplier := 2.0, bossAttackMultiplier := 1.8,
    playerDamageMultiplier := 0.6, experienceMultiplier := 5.0,
    wrongAnswerPenalty := 0.2 }

/-- States of `BattleManager.battleState`: `'waiting' | 'player-turn' | 'enemy-turn' |
'victory' | 'defeat'`. -/
inductive BattleState where
  | waiting
  | playerTurn
  | enemyTurn
  | victory
  | defeat
deriving DecidableEq

/-- One entry of `battleMessageHistory` (or the `message` field of a
result), abstracted to the event it narrates together with its numeric
payload; the concrete English sentence is presentation only. -/
inductive BattleMessage where
  | opening
  | playerHit (correct : Bool) (damage : ℤ)
  | victoryMsg (expGained goldGained : ℤ)
  | enemyHit (damage : ℤ)
  | defeatMsg
  | notYourTurn
deriving DecidableEq

/-- The value `submitAnswer` returns.  JavaScript returns ad-hoc objects
whose field sets differ between the three return sites; a field absent from
a returned object is `none`. -/
structure BattleResult where
  success : Bool
  message : Option BattleMessage
  correct : Option Bool
  damage : Option ℤ
  enemyHP : Option ℤ
  victory : Option Bool
  expGained : Option ℤ
  goldGained : Option ℤ
  leveledUp : Option Bool
deriving DecidableEq

/-- The mutable state a `BattleManager` owns: the hero's and the enemy's
stat blocks, the difficulty profile fixed at construction, the battle
state, the message history, and the trace of `save()` calls (each entry the
hero snapshot written to `localStorage`).  The current math problem and the
turn-system counters are owned by external collaborators whose code is not
part of this core and are not observed by any claim. -/
structure Battle where
  hero : CharacterStats
  enemy : CharacterStats
  difficultySettings : DifficultySettings
  battleState : BattleState
  battleMessageHistory : List BattleMessage
  saveLog : List CharacterStats
deriving DecidableEq

/-- The player damage pipeline of `submitAnswer` (`docs/ALGORITHMS.md`
lines 1133–1145): `AttackSystem.calculateDamage({attack}, {defense},
isCorrect)` — the caller passes no weapon bonus — then
`damage = Math.floor(damage * playerDamageMultiplier)` and, when the answer
was wrong, `damage = Math.max(1, Math.floor(damage * wrongAnswerPenalty))`. -/
def playerScaledDamage (b : Battle) (isCorrect : Bool) (variance : ℤ) : ℤ :=
  let raw : ℚ := calculateDamage b.hero.attack 0 b.enemy.defense isCorrect variance
  let scaled : ℤ := ⌊raw * b.difficultySettings.playerDamageMultiplier⌋
  if isCorrect then scaled
  else max 1 ⌊(scaled : ℚ) * b.difficultySettings.wrongAnswerPenalty⌋

/-- Source `BattleManager.submitAnswer(playerAnswer)`, with the external answer
validator's verdict (`isCorrect`) and the random variance roll passed in
explicitly.  Outside `player-turn` it returns
`{ success: false, message: 'Not your turn!' }` without touching the state.
Otherwise it damages the enemy, logs the hit, and either resolves victory
(rewards, one `save()`, terminal state) or hands the turn to the enemy. -/
def submitAnswer (b : Battle) (isCorrect : Bool) (variance : ℤ) : Battle × BattleResult :=
  if b.battleState ≠ BattleState.playerTurn then
    (b, { success := false, message := some BattleMessage.notYourTurn,
          correct := none, damage := none, enemyHP := none, victory := none,
          expGained := none, goldGained := none, leveledUp := none })
  else
    let damage : ℤ := playerScaledDamage b isCorrect variance
    let afterHit := applyDamage b.enemy (damage : ℚ)
    let msg := BattleMessage.playerHit isCorrect damage
    let log1 := b.battleMessageHistory ++ [msg]
    if afterHit.2 = false then
      let expEarned : ℤ := ⌊((b.enemy.level * 10 : ℤ) : ℚ) * b.difficultySettings.experienceMultiplier⌋
      let levelled := addExperience b.hero expEarned
      let goldEarned : ℤ := ⌊((b.enemy.level * 15 : ℤ) : ℚ) * b.difficultySettings.experienceMultiplier⌋
      let heroAfter := { levelled.1 with gold := levelled.1.gold + goldEarned }
      ({ b with
          hero := heroAfter
          enemy := afterHit.1
          battleState := BattleState.victory
          battleMessageHistory := log1 ++ [BattleMessage.victoryMsg expEarned goldEarned]
          saveLog := b.saveLog ++ [heroAfter] },
       { success := true, message := none, correct := none, damage := none,
         enemyHP := none, victory := some true, expGained := some expEarned,
         goldGained := some goldEarned, leveledUp := some levelled.2 })
    else
      ({ b with
          enemy := afterHit.1
          battleState := BattleState.enemyTurn
          battleMessageHistory := log1 },
       { success := true, message := some msg, correct := some isCorrect,
         damage := some damage, enemyHP := some afterHit.1.currentHP,
         victory := none, expGained := none, goldGained := none,
         leveledUp := none })

/-- Source `BattleManager.enemyTurn()`, with the random variance roll passed in.
Outside `enemy-turn` it returns with no effect (the JavaScript function has
no return value).  Otherwise the boss damage is the Attack-System formula —
the boss always "answers correctly" — capped by
`figureOutHowMuchDamageTheBossDoes`, applied to the hero; defeat is
terminal, else the turn returns to the player. -/
def enemyTurn (b : Battle) (variance : ℤ) : Battle :=
  if b.battleState ≠ BattleState.enemyTurn then b
  else
    let baseDamage : ℚ := calculateDamage b.enemy.attack 0 b.hero.defense true variance
    let finalDamage : ℤ := figureOutHowMuchDamageTheBossDoes baseDamage b.hero.level b.hero.maxHP
    let afterHit := applyDamage b.hero (finalDamage : ℚ)
    let log1 := b.battleMessageHistory ++ [BattleMessage.enemyHit finalDamage]
    if afterHit.2 = false then
      { b with
          hero := afterHit.1
          battleState := BattleState.defeat
          battleMessageHistory := log1 ++ [BattleMessage.defeatMsg] }
    else
      { b with
          hero := afterHit.1
          battleState := BattleState.playerTurn
          battleMessageHistory := log1 }

/-- One externally triggered mutating operation on a `BattleManager`:
a `submitAnswer` call (with the validator's verdict and variance roll it
observes) or an `enemyTurn` call (with its variance roll). -/
inductive BattleOp where
  | submit (isCorrect : Bool) (variance : ℤ)
  | enemyAct (variance : ℤ)

/-- Run one operation against the battle state. -/
def applyOp (b : Battle) (op : BattleOp) : Battle :=
  match op with
  | BattleOp.submit isCorrect variance => (submitAnswer b isCorrect variance).1
  | BattleOp.enemyAct variance => enemyTurn b variance

/-- A record of the sorted grade array searched by `binarySearchGrade`
(`NumberLine.js` source file, `DungeonSearcher` part): the `grade` key the
search compares on, the rest of the record abstracted into a payload. -/
structure GradeRec where
  grade : ℤ
  payload : ℕ
deriving DecidableEq

instance : Inhabited GradeRec := ⟨⟨0, 0⟩⟩

/-- Source `binarySearchGrade(sortedGrades, targetGrade, left, right)`
(`NumberLine.js` lines 135–157): recursive binary search returning the
matching record or `null`.  JavaScript's `Math.floor((left + right) / 2)`
is `(left + right) / 2` on `ℤ` (divisor positive, so Lean's division is the
floor).  The JavaScript call sites use the default bounds `left = 0`,
`right = sortedGrades.length - 1`. -/
def binarySearchGrade (sortedGrades : List GradeRec) (targetGrade : ℤ) (left right : ℤ) :
    Option GradeRec :=
  if left > right then none
  else
    let mid : ℤ := (left + right) / 2
    let midGrade := sortedGrades.getD mid.toNat default
    if midGrade.grade = targetGrade then some midGrade
    else if midGrade.grade < targetGrade then
      binarySearchGrade sortedGrades targetGrade (mid + 1) right
    else
      binarySearchGrade sortedGrades targetGrade left (mid - 1)
termination_by (right + 1 - left).toNat
decreasing_by
  · simp only [not_lt] at *; omega
  · simp only [not_lt] at *; omega

/-! ## Shared helper lemmas -/

/-- The boss cap never exceeds `max 1 ⌊heroMaxHP * 0.20⌋`: the floored,
capped value is at most `⌊heroMaxHP * 0.20⌋` and the final clamp lifts it to
at most 1. -/
theorem figureOut_le_cap (d : ℚ) (lvl hp : ℤ) :
    figureOutHowMuchDamageTheBossDoes d lvl hp ≤ max 1 ⌊(hp : ℚ) * 0.20⌋ := by
  simp only [figureOutHowMuchDamageTheBossDoes]
  exact max_le_max le_rfl (Int.floor_le_floor (min_le_right _ _))

/-! ## C1 — boss fairness cap -/

/-- C1, counterexample.  The claim asserts that for every `heroMaxHP > 0`
the boss cap never exceeds `⌊heroMaxHP × 0.20⌋`.  At `nominalDamage = 10`,
`heroLevel = 1`, `heroMaxHP = 4` the code returns `max(1, ⌊0.8⌋) = 1` while
`⌊4 × 0.20⌋ = 0`, so the bound fails for small `heroMaxHP`. -/
theorem claim_C1_counterexample :
    figureOutHowMuchDamageTheBossDoes 10 1 4 = 1
    ∧ ⌊(4 : ℚ) * 0.20⌋ = 0
    ∧ ¬ figureOutHowMuchDamageTheBossDoes 10 1 4 ≤ ⌊(4 : ℚ) * 0.20⌋ := by
  have h1 : figureOutHowMuchDamageTheBossDoes 10 1 4 = 1 := by
    norm_num [figureOutHowMuchDamageTheBossDoes, min_def, max_def]
  have h2 : ⌊(4 : ℚ) * 0.20⌋ = 0 := by norm_num
  exact ⟨h1, h2, by rw [h1, h2]; norm_num⟩

/-- C1, amended.  `figureOutHowMuchDamageTheBossDoes` returns
`max(1, ⌊min(nominalDamage × (1 + max(0, heroLevel−1) × 0.05),
heroMaxHP × 0.20)⌋)`, and the result never exceeds
`max(1, ⌊heroMaxHP × 0.20⌋)`; the claim's bound `⌊heroMaxHP × 0.20⌋`
itself holds as soon as `heroMaxHP ≥ 5` (so that the floor is ≥ 1). -/
theorem claim_C1_amended (nominalDamage heroLevel heroMaxHP : ℤ)
    (hlevel : 1 ≤ heroLevel) (hhp : 0 < heroMaxHP) :
    figureOutHowMuchDamageTheBossDoes (nominalDamage : ℚ) heroLevel heroMaxHP
        = max 1 ⌊min ((nominalDamage : ℚ) * (1 + ((max 0 (heroLevel - 1) : ℤ) : ℚ) * 0.05))
            ((heroMaxHP : ℚ) * 0.20)⌋
    ∧ figureOutHowMuchDamageTheBossDoes (nominalDamage : ℚ) heroLevel heroMaxHP
        ≤ max 1 ⌊(heroMaxHP : ℚ) * 0.20⌋
    ∧ (5 ≤ heroMaxHP →
        figureOutHowMuchDamageTheBossDoes (nominalDamage : ℚ) heroLevel heroMaxHP
          ≤ ⌊(heroMaxHP : ℚ) * 0.20⌋) := by
  refine ⟨rfl, figureOut_le_cap _ _ _, fun h5 => ?_⟩
  have hfloor : (1 : ℤ) ≤ ⌊(heroMaxHP : ℚ) * 0.20⌋ := by
    rw [Int.le_floor]
    have h : (5 : ℚ) ≤ (heroMaxHP : ℚ) := by exact_mod_cast h5
    push_cast
    linarith
  calc figureOutHowMuchDamageTheBossDoes (nominalDamage : ℚ) heroLevel heroMaxHP
      ≤ max 1 ⌊(heroMaxHP : ℚ) * 0.20⌋ := figureOut_le_cap _ _ _
    _ = ⌊(heroMaxHP : ℚ) * 0.20⌋ := max_eq_right hfloor

/-- C1, witness: the amended theorem applied at scenario C of the spec
(nominal damage 100, hero level 5, max HP 400, capped at 80 ≤ ⌊400×0.2⌋). -/
theorem claim_C1_witness :
    figureOutHowMuchDamageTheBossDoes ((100 : ℤ) : ℚ) 5 400 ≤ ⌊(((400 : ℤ) : ℤ) : ℚ) * 0.20⌋ :=
  (claim_C1_amended 100 5 400 (by norm_num) (by norm_num)).2.2 (by norm_num)

/-! ## C2 — damage application -/

/-- C2, counterexample.  The claim asserts `applyDamage` subtracts
`max(0, amount)`, so amount 0 leaves `currentHP` unchanged; but the
source's `takeDamage` subtracts `max(1, Math.floor(damage))`, so a hit of 0
still costs one hit point: from `currentHP = 10` it goes to 9, not 10. -/
theorem claim_C2_counterexample :
    (applyDamage ⟨400, 10, 10, 5, 1, 0, 100, 0, 0⟩ 0).1.currentHP = 9
    ∧ ((applyDamage ⟨400, 10, 10, 5, 1, 0, 100, 0, 0⟩ 0).1.currentHP
        = (⟨400, 10, 10, 5, 1, 0, 100, 0, 0⟩ : CharacterStats).currentHP) = False := by
  norm_num [applyDamage, takeDamage]

/-- C2, amended.  `applyDamage` subtracts `max(1, ⌊amount⌋)` — not
`max(0, amount)` — from `currentHP`, floors the result at 0, and returns
whether `currentHP > 0` afterwards; `currentHP` never goes below 0, `maxHP`
is untouched, and `currentHP` stays at most `maxHP` whenever it started so
(with `maxHP ≥ 0`); with amount 0 a positive `currentHP` drops by exactly
1 rather than staying unchanged. -/
theorem claim_C2_amended (s : CharacterStats) (amount : ℚ) :
    (applyDamage s amount).1.currentHP = max 0 (s.currentHP - max 1 ⌊amount⌋)
    ∧ ((applyDamage s amount).2 = true ↔ 0 < (applyDamage s amount).1.currentHP)
    ∧ 0 ≤ (applyDamage s amount).1.currentHP
    ∧ (applyDamage s amount).1.maxHP = s.maxHP
    ∧ (0 ≤ s.maxHP → s.currentHP ≤ s.maxHP → (applyDamage s amount).1.currentHP ≤ s.maxHP)
    ∧ (0 < s.currentHP → (applyDamage s 0).1.currentHP = s.currentHP - 1) := by
  have hcur : (applyDamage s amount).1.currentHP = max 0 (s.currentHP - max 1 ⌊amount⌋) := rfl
  have hmax : (applyDamage s amount).1.maxHP = s.maxHP := rfl
  refine ⟨hcur, ?_, ?_, hmax, fun h0 hle => ?_, fun hpos => ?_⟩
  · simp only [applyDamage, isAlive, decide_eq_true_eq]
  · rw [hcur]; exact le_max_left _ _
  · rw [hcur]; omega
  · have h0 : (applyDamage s 0).1.currentHP = max 0 (s.currentHP - max 1 ⌊(0 : ℚ)⌋) := rfl
    rw [h0, Int.floor_zero]; omega

/-! ## C3 — Attack-System damage formula -/

/-- C3, counterexample.  The claim asserts
`calculateDamage = max(1, ⌊base + variance − defense × 0.5⌋)`, always an
integer.  The source formula has no floor: with attack 20, bonus 5,
defense 10, a wrong answer and variance 3 it returns 10.5 (a
half-integer), not `max(1, ⌊10.5⌋) = 10`. -/
theorem claim_C3_counterexample :
    calculateDamage 20 5 10 false 3 = 21 / 2
    ∧ (calculateDamage 20 5 10 false 3
        = ((max 1 ⌊((20 + 5 : ℚ)) * 0.5 + 3 - 10 * 0.5⌋ : ℤ) : ℚ)) = False := by
  norm_num [calculateDamage, max_def]

/-- C3, amended.  For attack ≥ 0, weapon bonus ≥ 0, defense ≥ 0, either
correctness flag and variance in `[0, 5]`, `calculateDamage` returns
`max(1, base + variance − defense × 0.5)` with `base = attack + bonus`,
halved when the answer was incorrect, with no rounding (so the result can
be a half-integer rather than always an integer); the result is always
≥ 1, and for attack 20, bonus 5, defense 10, a correct answer and
variance 3 it equals 23. -/
theorem claim_C3_amended (attack weaponBonus defense variance : ℤ) (wasCorrect : Bool)
    (ha : 0 ≤ attack) (hw : 0 ≤ weaponBonus) (hd : 0 ≤ defense)
    (hv0 : 0 ≤ variance) (hv5 : variance ≤ 5) :
    calculateDamage attack weaponBonus defense wasCorrect variance
        = max 1 ((if wasCorrect then ((attack + weaponBonus : ℤ) : ℚ)
            else ((attack + weaponBonus : ℤ) : ℚ) * 0.5) + (variance : ℚ) - (defense : ℚ) * 0.5)
    ∧ 1 ≤ calculateDamage attack weaponBonus defense wasCorrect variance
    ∧ calculateDamage 20 5 10 true 3 = 23 := by
  refine ⟨rfl, le_max_left _ _, by norm_num [calculateDamage, max_def]⟩

/-- C3, witness: the amended theorem applied at the spec's scenario A
inputs (attack 20, bonus 5, defense 10, correct answer, variance 3). -/
theorem claim_C3_witness : calculateDamage 20 5 10 true 3 = 23 :=
  (claim_C3_amended 20 5 10 3 true (by norm_num) (by norm_num) (by norm_num)
    (by norm_num) (by norm_num)).2.2

/-! ## C4 — wrong-answer damage pipeline -/

/-- C4.  In player-turn state with an incorrect answer, the damage the
enemy takes is the Attack-System base damage (already halved inside
`calculateDamage` by `wasCorrect = false`), scaled by
`playerDamageMultiplier` and floored, then scaled by `wrongAnswerPenalty`
and floored again, clamped to a minimum of 1: both the halving and the
profile penalty apply to every wrong answer. -/
theorem claim_C4_wrong_answer_damage (b : Battle) (variance : ℤ)
    (hstate : b.battleState = BattleState.playerTurn) :
    playerScaledDamage b false variance
        = max 1 ⌊((⌊calculateDamage b.hero.attack 0 b.enemy.defense false variance
              * b.difficultySettings.playerDamageMultiplier⌋ : ℤ) : ℚ)
            * b.difficultySettings.wrongAnswerPenalty⌋
    ∧ calculateDamage b.hero.attack 0 b.enemy.defense false variance
        = max 1 (((b.hero.attack + 0 : ℤ) : ℚ) * 0.5 + (variance : ℚ)
            - (b.enemy.defense : ℚ) * 0.5)
    ∧ (submitAnswer b false variance).1.enemy.currentHP
        = max 0 (b.enemy.currentHP - playerScaledDamage b false variance)
    ∧ 1 ≤ playerScaledDamage b false variance := by
  have hdmg : (1 : ℤ) ≤ playerScaledDamage b false variance := by
    simp only [playerScaledDamage, Bool.false_eq_true, if_false]
    exact le_max_left _ _
  refine ⟨rfl, rfl, ?_, hdmg⟩
  have hfloor : ⌊((playerScaledDamage b false variance : ℤ) : ℚ)⌋
      = playerScaledDamage b false variance := Int.floor_intCast _
  have happly : (applyDamage b.enemy ((playerScaledDamage b false variance : ℤ) : ℚ)).1.currentHP
      = max 0 (b.enemy.currentHP - playerScaledDamage b false variance) := by
    show max 0 (b.enemy.currentHP - max 1 ⌊((playerScaledDamage b false variance : ℤ) : ℚ)⌋)
        = max 0 (b.enemy.currentHP - playerScaledDamage b false variance)
    rw [hfloor]
    omega
  simp only [submitAnswer, hstate, ne_eq, not_true_eq_false, if_false, ite_not]
  by_cases hdead : (applyDamage b.enemy ((playerScaledDamage b false variance : ℤ) : ℚ)).2 = false
  · simp only [hdead, if_true, if_false]
    exact happly
  · simp only [hdead, if_true, if_false]
    exact happly

/-- C4, witness: the pipeline at a concrete battle (medium profile,
hero attack 20, enemy defense 10, variance 3, wrong answer). -/
theorem claim_C4_witness :
    1 ≤ playerScaledDamage
      { hero := ⟨400, 400, 20, 5, 1, 0, 100, 0, 0⟩,
        enemy := ⟨100, 100, 8, 10, 3, 0, 100, 0, 0⟩,
        difficultySettings := mediumSettings,
        battleState := BattleState.playerTurn,
        battleMessageHistory := [BattleMessage.opening],
        saveLog := [] } false 3 :=
  (claim_C4_wrong_answer_damage _ 3 rfl).2.2.2

/-! ## C5 — no-op outside the right turn -/

/-- C5.  `submitAnswer` outside player-turn (in particular in the terminal
states victory and defeat) leaves the whole battle state — hero, enemy,
log, state, save trace — unchanged and returns
`{ success: false, message: 'Not your turn!' }`; `enemyTurn` outside
enemy-turn likewise returns with the state unchanged (the JavaScript
function returns no value, so the no-effect result is `submitAnswer`'s). -/
theorem claim_C5_no_op_outside_turn :
    (∀ (b : Battle) (isCorrect : Bool) (variance : ℤ),
      b.battleState ≠ BattleState.playerTurn →
        submitAnswer b isCorrect variance
          = (b, { success := false, message := some BattleMessage.notYourTurn,
                  correct := none, damage := none, enemyHP := none, victory := none,
                  expGained := none, goldGained := none, leveledUp := none }))
    ∧ (∀ (b : Battle) (variance : ℤ),
        b.battleState ≠ BattleState.enemyTurn → enemyTurn b variance = b) := by
  constructor
  · intro b isCorrect variance hb
    simp only [submitAnswer, hb, if_true, ne_eq, not_false_eq_true]
  · intro b variance hb
    simp only [enemyTurn, hb, if_true, ne_eq, not_false_eq_true]

/-! ## C6 — turn state machine -/

/-- From player-turn, one `submitAnswer` call ends in victory or
enemy-turn. -/
theorem submitAnswer_state_step (b : Battle) (isCorrect : Bool) (variance : ℤ)
    (hb : b.battleState = BattleState.playerTurn) :
    (submitAnswer b isCorrect variance).1.battleState = BattleState.victory
    ∨ (submitAnswer b isCorrect variance).1.battleState = BattleState.enemyTurn := by
  simp only [submitAnswer, hb, ne_eq, not_true_eq_false, if_false, ite_not]
  by_cases hdead :
      (applyDamage b.enemy ((playerScaledDamage b isCorrect variance : ℤ) : ℚ)).2 = false
  · simp [hdead]
  · simp [hdead]

/-- From enemy-turn, one `enemyTurn` call ends in defeat or player-turn. -/
theorem enemyTurn_state_step (b : Battle) (variance : ℤ)
    (hb : b.battleState = BattleState.enemyTurn) :
    (enemyTurn b variance).battleState = BattleState.defeat
    ∨ (enemyTurn b variance).battleState = BattleState.playerTurn := by
  simp only [enemyTurn, hb, ne_eq, not_true_eq_false, if_false, ite_not]
  by_cases hdead :
      (applyDamage b.hero
        ((figureOutHowMuchDamageTheBossDoes
          (calculateDamage b.enemy.attack 0 b.hero.defense true variance)
          b.hero.level b.hero.maxHP : ℤ) : ℚ)).2 = false
  · simp [hdead]
  · simp [hdead]

/-- A single operation never leaves a terminal state. -/
theorem applyOp_terminal (b : Battle) (op : BattleOp)
    (hb : b.battleState = BattleState.victory ∨ b.battleState = BattleState.defeat) :
    applyOp b op = b := by
  rcases op with ⟨isCorrect, variance⟩ | ⟨variance⟩
  · show (submitAnswer b isCorrect variance).1 = b
    have hne : b.battleState ≠ BattleState.playerTurn := by
      rcases hb with h | h <;> simp [h]
    simp only [submitAnswer, hne, if_true, ne_eq, not_false_eq_true]
  · show enemyTurn b variance = b
    have hne : b.battleState ≠ BattleState.enemyTurn := by
      rcases hb with h | h <;> simp [h]
    simp only [enemyTurn, hne, if_true, ne_eq, not_false_eq_true]

/-- C6.  The battle state only moves along
`waiting → player-turn → enemy-turn → (player-turn | victory | defeat)`:
`submitAnswer` from player-turn ends in victory or enemy-turn within the
same call, `enemyTurn` from enemy-turn ends in defeat or player-turn, and
once the state is victory or defeat no sequence of `submitAnswer` /
`enemyTurn` operations ever changes the battle again. -/
theorem claim_C6_state_machine :
    (∀ (b : Battle) (isCorrect : Bool) (variance : ℤ),
      b.battleState = BattleState.playerTurn →
        (submitAnswer b isCorrect variance).1.battleState = BattleState.victory
        ∨ (submitAnswer b isCorrect variance).1.battleState = BattleState.enemyTurn)
    ∧ (∀ (b : Battle) (variance : ℤ),
        b.battleState = BattleState.enemyTurn →
          (enemyTurn b variance).battleState = BattleState.defeat
          ∨ (enemyTurn b variance).battleState = BattleState.playerTurn)
    ∧ (∀ (b : Battle) (ops : List BattleOp),
        b.battleState = BattleState.victory ∨ b.battleState = BattleState.defeat →
          ops.foldl applyOp b = b) := by
  refine ⟨submitAnswer_state_step, enemyTurn_state_step, fun b ops hb => ?_⟩
  induction ops with
  | nil => rfl
  | cons op rest ih =>
    rw [List.foldl_cons, applyOp_terminal b op hb]
    exact ih

/-! ## C7 — victory branch rewards and persistence -/

/-- A concrete battle one hit from victory: medium profile, hero with
attack 20, enemy at 1 HP with defense 10 and level 3. -/
def demoKillBattle : Battle :=
  { hero := ⟨400, 400, 20, 5, 1, 0, 100, 0, 0⟩,
    enemy := ⟨100, 1, 8, 10, 3, 0, 100, 0, 0⟩,
    difficultySettings := mediumSettings,
    battleState := BattleState.playerTurn,
    battleMessageHistory := [BattleMessage.opening],
    saveLog := [] }

/-- The player's scaled damage in `demoKillBattle` with a correct answer
and variance 3: `⌊max(1, 20 + 3 − 10×0.5) × 1.0⌋ = 18`. -/
theorem demoKillBattle_damage : playerScaledDamage demoKillBattle true 3 = 18 := by
  norm_num [playerScaledDamage, calculateDamage, demoKillBattle, mediumSettings, max_def]

/-- Applying that damage kills the demo enemy. -/
theorem demoKillBattle_dead :
    (applyDamage demoKillBattle.enemy
      ((playerScaledDamage demoKillBattle true 3 : ℤ) : ℚ)).2 = false := by
  rw [demoKillBattle_damage]
  norm_num [applyDamage, takeDamage, isAlive, demoKillBattle]

/-- C7.  When `submitAnswer` drops the enemy to 0 HP, the same call moves
the state to victory, grants `⌊enemy.level × 10 × experienceMultiplier⌋`
experience through `addExperience` and `⌊enemy.level × 15 ×
experienceMultiplier⌋` gold, and appends exactly one `save()` snapshot to
the persistence trace, equal to the hero after experience and gold were
applied. -/
theorem claim_C7_victory_branch (b : Battle) (isCorrect : Bool) (variance : ℤ)
    (hstate : b.battleState = BattleState.playerTurn)
    (hdead : (applyDamage b.enemy
      ((playerScaledDamage b isCorrect variance : ℤ) : ℚ)).2 = false) :
    (submitAnswer b isCorrect variance).1.battleState = BattleState.victory
    ∧ (submitAnswer b isCorrect variance).2.expGained
        = some ⌊((b.enemy.level * 10 : ℤ) : ℚ) * b.difficultySettings.experienceMultiplier⌋
    ∧ (submitAnswer b isCorrect variance).2.goldGained
        = some ⌊((b.enemy.level * 15 : ℤ) : ℚ) * b.difficultySettings.experienceMultiplier⌋
    ∧ (submitAnswer b isCorrect variance).1.hero
        = { (addExperience b.hero
              ⌊((b.enemy.level * 10 : ℤ) : ℚ) * b.difficultySettings.experienceMultiplier⌋).1 with
            gold := (addExperience b.hero
              ⌊((b.enemy.level * 10 : ℤ) : ℚ) * b.difficultySettings.experienceMultiplier⌋).1.gold
              + ⌊((b.enemy.level * 15 : ℤ) : ℚ) * b.difficultySettings.experienceMultiplier⌋ }
    ∧ (submitAnswer b isCorrect variance).2.leveledUp
        = some (addExperience b.hero
            ⌊((b.enemy.level * 10 : ℤ) : ℚ) * b.difficultySettings.experienceMultiplier⌋).2
    ∧ (submitAnswer b isCorrect variance).1.saveLog
        = b.saveLog ++ [(submitAnswer b isCorrect variance).1.hero] := by
  simp [submitAnswer, hstate, hdead]

/-- C7, witness: the victory branch at `demoKillBattle` (correct answer,
variance 3). -/
theorem claim_C7_witness :
    (submitAnswer demoKillBattle true 3).1.battleState = BattleState.victory :=
  (claim_C7_victory_branch demoKillBattle true 3 rfl demoKillBattle_dead).1

/-! ## C8 — BattleResult field sets -/

/-- C8, counterexample.  The claim asserts the victory return carries the
`correct`, `damage` and `enemyHP` fields; in the source the victory return
object is `{ success, victory, expGained, goldGained, leveledUp }`, so at a
winning call those three fields are absent. -/
theorem claim_C8_counterexample :
    (submitAnswer demoKillBattle true 3).2.victory = some true
    ∧ (submitAnswer demoKillBattle true 3).2.correct = none
    ∧ (submitAnswer demoKillBattle true 3).2.damage = none
    ∧ (submitAnswer demoKillBattle true 3).2.enemyHP = none := by
  have hstate : demoKillBattle.battleState = BattleState.playerTurn := rfl
  simp [submitAnswer, hstate, demoKillBattle_dead]

/-- C8, amended.  Every `submitAnswer` call in player-turn state returns
`success = true`, but the two returns carry different field sets: the
victory return carries `victory = true`, `expGained`, `goldGained` and
`leveledUp` and omits `correct`, `damage` and `enemyHP`; the non-victory
return carries `correct`, `damage` and `enemyHP` (and the log message) and
omits `victory`, `leveledUp`, `expGained` and `goldGained`. -/
theorem claim_C8_amended (b : Battle) (isCorrect : Bool) (variance : ℤ)
    (hstate : b.battleState = BattleState.playerTurn) :
    (submitAnswer b isCorrect variance).2.success = true
    ∧ ((applyDamage b.enemy ((playerScaledDamage b isCorrect variance : ℤ) : ℚ)).2 = false →
        (submitAnswer b isCorrect variance).2.victory = some true
        ∧ ((submitAnswer b isCorrect variance).2.expGained).isSome = true
        ∧ ((submitAnswer b isCorrect variance).2.goldGained).isSome = true
        ∧ ((submitAnswer b isCorrect variance).2.leveledUp).isSome = true
        ∧ (submitAnswer b isCorrect variance).2.correct = none
        ∧ (submitAnswer b isCorrect variance).2.damage = none
        ∧ (submitAnswer b isCorrect variance).2.enemyHP = none)
    ∧ ((applyDamage b.enemy ((playerScaledDamage b isCorrect variance : ℤ) : ℚ)).2 = true →
        (submitAnswer b isCorrect variance).2.correct = some isCorrect
        ∧ (submitAnswer b isCorrect variance).2.damage
            = some (playerScaledDamage b isCorrect variance)
        ∧ (submitAnswer b isCorrect variance).2.enemyHP
            = some ((applyDamage b.enemy
                ((playerScaledDamage b isCorrect variance : ℤ) : ℚ)).1.currentHP)
        ∧ (submitAnswer b isCorrect variance).2.victory = none
        ∧ (submitAnswer b isCorrect variance).2.leveledUp = none
        ∧ (submitAnswer b isCorrect variance).2.expGained = none
        ∧ (submitAnswer b isCorrect variance).2.goldGained = none) := by
  simp only [submitAnswer, hstate, ne_eq, not_true_eq_false, if_false, ite_not]
  by_cases hdead :
      (applyDamage b.enemy ((playerScaledDamage b isCorrect variance : ℤ) : ℚ)).2 = false
  · simp [hdead]
  · simp [hdead]

/-- C8, witness: the amended theorem at `demoKillBattle`, which takes the
victory return. -/
theorem claim_C8_witness : (submitAnswer demoKillBattle true 3).2.success = true :=
  (claim_C8_amended demoKillBattle true 3 rfl).1

/-! ## C9 — experience and leveling -/

/-- One executed iteration of the level-up loop. -/
theorem addExpLoop_step (fuel : ℕ) (s : CharacterStats) (lev : Bool)
    (h : s.experienceToNextLevel ≤ s.experience) :
    addExpLoop (fuel + 1) s lev
      = addExpLoop fuel
          (levelUp { s with experience := s.experience - s.experienceToNextLevel }) true := by
  simp only [addExpLoop, if_pos h]

/-- The loop returns as soon as the guard fails, whatever fuel is left. -/
theorem addExpLoop_stop (fuel : ℕ) (s : CharacterStats) (lev : Bool)
    (h : ¬ s.experienceToNextLevel ≤ s.experience) :
    addExpLoop fuel s lev = (s, lev) := by
  cases fuel with
  | zero => rfl
  | succ n => simp only [addExpLoop, if_neg h]

/-- The loop never lowers the level. -/
theorem addExpLoop_level_mono (fuel : ℕ) :
    ∀ (s : CharacterStats) (lev : Bool), s.level ≤ (addExpLoop fuel s lev).1.level := by
  induction fuel with
  | zero => intro s lev; exact le_refl _
  | succ n ih =>
    intro s lev
    by_cases h : s.experienceToNextLevel ≤ s.experience
    · rw [addExpLoop_step n s lev h]
      have h2 := ih (levelUp { s with experience := s.experience - s.experienceToNextLevel }) true
      have h3 : (levelUp { s with experience := s.experience - s.experienceToNextLevel }).level
          = s.level + 1 := rfl
      omega
    · rw [addExpLoop_stop _ _ _ h]

/-- The loop's Boolean records exactly whether the level grew. -/
theorem addExpLoop_leveled (fuel : ℕ) :
    ∀ (s : CharacterStats) (lev : Bool),
      ((addExpLoop fuel s lev).2 = true
        ↔ (lev = true ∨ s.level < (addExpLoop fuel s lev).1.level)) := by
  induction fuel with
  | zero => intro s lev; simp [addExpLoop]
  | succ n ih =>
    intro s lev
    by_cases h : s.experienceToNextLevel ≤ s.experience
    · rw [addExpLoop_step n s lev h]
      have hmono := addExpLoop_level_mono n
        (levelUp { s with experience := s.experience - s.experienceToNextLevel }) true
      have hlvl : (levelUp { s with experience := s.experience - s.experienceToNextLevel }).level
          = s.level + 1 := rfl
      have hiff := ih (levelUp { s with experience := s.experience - s.experienceToNextLevel }) true
      constructor
      · intro _; right; omega
      · intro _; rw [hiff]; left; rfl
    · rw [addExpLoop_stop _ _ _ h]; simp

/-- With `experienceToNextLevel ≥ 1` and enough fuel, the loop leaves
`experience` strictly below the (final) `experienceToNextLevel`. -/
theorem addExpLoop_post (fuel : ℕ) :
    ∀ (s : CharacterStats) (lev : Bool), 1 ≤ s.experienceToNextLevel →
      s.experience.toNat < fuel →
      (addExpLoop fuel s lev).1.experience < (addExpLoop fuel s lev).1.experienceToNextLevel := by
  induction fuel with
  | zero => intro s lev _ h2; exact absurd h2 (Nat.not_lt_zero _)
  | succ n ih =>
    intro s lev h1 h2
    by_cases h : s.experienceToNextLevel ≤ s.experience
    · rw [addExpLoop_step n s lev h]
      apply ih
      · have he : (levelUp { s with
            experience := s.experience - s.experienceToNextLevel }).experienceToNextLevel
            = ⌊(s.experienceToNextLevel : ℚ) * 1.5⌋ := rfl
        rw [he, Int.le_floor]
        have hc : (1 : ℚ) ≤ (s.experienceToNextLevel : ℚ) := by exact_mod_cast h1
        push_cast
        linarith
      · have he : (levelUp { s with
            experience := s.experience - s.experienceToNextLevel }).experience
            = s.experience - s.experienceToNextLevel := rfl
        omega
    · rw [addExpLoop_stop _ _ _ h]
      exact not_le.mp h

/-- Awarding `addExperience s 0` is a no-op on a stat block whose experience is
below the threshold. -/
theorem addExperience_zero (s : CharacterStats)
    (h : s.experience < s.experienceToNextLevel) : addExperience s 0 = (s, false) := by
  show addExpLoop ((s.experience + 0).toNat + 1) { s with experience := s.experience + 0 } false
      = (s, false)
  rw [add_zero]
  have hs : { s with experience := s.experience } = s := rfl
  rw [hs]
  exact addExpLoop_stop _ _ _ (not_le.mpr h)

/-- The level-1 hero of the spec's scenario D: maxHP 400, attack 10,
defense 5, 0 experience, 100 to the next level. -/
def scenarioDHero : CharacterStats := ⟨400, 400, 10, 5, 1, 0, 100, 0, 0⟩

/-- C9.  `addExperience` adds the award, then repeatedly consumes
`experienceToNextLevel` and applies `levelUp`, returning whether at least
one level-up occurred: the level never decreases, an award of 0 on a
below-threshold block changes nothing, afterwards
`experience < experienceToNextLevel` (whenever the threshold invariant
`experienceToNextLevel ≥ 1` holds), the returned Boolean is true exactly
when the level grew, each `levelUp` multiplies maxHP by 1.2, attack by
1.15, defense by 1.1 and the threshold by 1.5 (each floored) and heals
exactly the HP gained, and scenario D holds: the level-1 hero with maxHP
400, attack 10, defense 5, threshold 100 awarded 150 experience ends at
level 2, experience 50, maxHP 480, attack 11, defense 5, threshold 150,
with `leveledUp = true`. -/
theorem claim_C9_addExperience :
    (∀ (s : CharacterStats) (exp : ℤ), s.level ≤ (addExperience s exp).1.level)
    ∧ (∀ s : CharacterStats, s.experience < s.experienceToNextLevel →
        addExperience s 0 = (s, false))
    ∧ (∀ (s : CharacterStats) (exp : ℤ), 1 ≤ s.experienceToNextLevel →
        (addExperience s exp).1.experience < (addExperience s exp).1.experienceToNextLevel)
    ∧ (∀ (s : CharacterStats) (exp : ℤ),
        ((addExperience s exp).2 = true ↔ s.level < (addExperience s exp).1.level))
    ∧ (∀ s : CharacterStats,
        (levelUp s).level = s.level + 1
        ∧ (levelUp s).maxHP = ⌊(s.maxHP : ℚ) * 1.2⌋
        ∧ (levelUp s).currentHP = s.currentHP + ((levelUp s).maxHP - s.maxHP)
        ∧ (levelUp s).attack = ⌊(s.attack : ℚ) * 1.15⌋
        ∧ (levelUp s).defense = ⌊(s.defense : ℚ) * 1.1⌋
        ∧ (levelUp s).experienceToNextLevel = ⌊(s.experienceToNextLevel : ℚ) * 1.5⌋)
    ∧ addExperience scenarioDHero 150 = (⟨480, 480, 11, 5, 2, 50, 150, 0, 0⟩, true) := by
  refine ⟨?_, addExperience_zero, ?_, ?_, ?_, ?_⟩
  · intro s exp; exact addExpLoop_level_mono _ _ _
  · intro s exp h1
    exact addExpLoop_post _ _ _ h1 (Nat.lt_succ_self _)
  · intro s exp
    have h := addExpLoop_leveled ((s.experience + exp).toNat + 1)
      { s with experience := s.experience + exp } false
    simpa [addExperience] using h
  · intro s; exact ⟨rfl, rfl, rfl, rfl, rfl, rfl⟩
  · have h1 : levelUp ⟨400, 400, 10, 5, 1, 50, 100, 0, 0⟩ = ⟨480, 480, 11, 5, 2, 50, 150, 0, 0⟩ := by
      simp only [levelUp]
      norm_num
    have h2 : addExperience scenarioDHero 150
        = addExpLoop (150 + 1) ⟨400, 400, 10, 5, 1, 150, 100, 0, 0⟩ false := rfl
    rw [h2, addExpLoop_step 150 _ false (by norm_num)]
    have hrec : { (⟨400, 400, 10, 5, 1, 150, 100, 0, 0⟩ : CharacterStats) with
        experience := (150 : ℤ) - 100 } = ⟨400, 400, 10, 5, 1, 50, 100, 0, 0⟩ := by norm_num
    rw [hrec, h1]
    exact addExpLoop_stop _ _ _ (by norm_num)

/-! ## C10 — binary search on the sorted grade array -/

/-- One-step unfolding of `binarySearchGrade` with the `let`s inlined. -/
theorem binarySearchGrade_eq (l : List GradeRec) (target left right : ℤ) :
    binarySearchGrade l target left right
      = if left > right then none
        else if (l.getD ((left + right) / 2).toNat default).grade = target then
          some (l.getD ((left + right) / 2).toNat default)
        else if (l.getD ((left + right) / 2).toNat default).grade < target then
          binarySearchGrade l target ((left + right) / 2 + 1) right
        else
          binarySearchGrade l target left ((left + right) / 2 - 1) := by
  rw [binarySearchGrade]

/-- Soundness: whatever record the search returns lies in the array and
carries the target grade (needs only that the window is inside the
array). -/
theorem binarySearchGrade_sound (l : List GradeRec) (target : ℤ) :
    ∀ (n : ℕ) (left right : ℤ), (right + 1 - left).toNat ≤ n →
      0 ≤ left → right < (l.length : ℤ) →
      ∀ g, binarySearchGrade l target left right = some g → g ∈ l ∧ g.grade = target := by
  intro n
  induction n with
  | zero =>
    intro left right hn h0 hr g hsome
    rw [binarySearchGrade_eq, if_pos (by omega)] at hsome
    exact absurd hsome (by simp)
  | succ n ih =>
    intro left right hn h0 hr g hsome
    rw [binarySearchGrade_eq] at hsome
    by_cases hlr : left > right
    · rw [if_pos hlr] at hsome
      exact absurd hsome (by simp)
    · rw [if_neg hlr] at hsome
      have hmidnat : ((left + right) / 2).toNat < l.length := by omega
      have hget : l.getD ((left + right) / 2).toNat default = l[((left + right) / 2).toNat] :=
        List.getD_eq_getElem l default hmidnat
      by_cases heq : (l.getD ((left + right) / 2).toNat default).grade = target
      · rw [if_pos heq] at hsome
        have hg : l.getD ((left + right) / 2).toNat default = g := Option.some.inj hsome
        refine ⟨?_, hg ▸ heq⟩
        rw [← hg, hget]
        exact List.getElem_mem hmidnat
      · rw [if_neg heq] at hsome
        by_cases hlt : (l.getD ((left + right) / 2).toNat default).grade < target
        · rw [if_pos hlt] at hsome
          exact ih ((left + right) / 2 + 1) right (by omega) (by omega) hr g hsome
        · rw [if_neg hlt] at hsome
          exact ih left ((left + right) / 2 - 1) (by omega) h0 (by omega) g hsome

/-- Completeness on a strictly sorted array: if the window contains an
index holding the target grade, the search succeeds. -/
theorem binarySearchGrade_complete (l : List GradeRec) (target : ℤ)
    (hsorted : l.Pairwise (fun a b => a.grade < b.grade)) :
    ∀ (n : ℕ) (left right : ℤ), (right + 1 - left).toNat ≤ n →
      0 ≤ left → right < (l.length : ℤ) →
      ∀ (i : ℕ) (hi : i < l.length), left ≤ (i : ℤ) → (i : ℤ) ≤ right →
        l[i].grade = target →
        ∃ g, binarySearchGrade l target left right = some g ∧ g ∈ l ∧ g.grade = target := by
  have hmono := List.pairwise_iff_getElem.mp hsorted
  intro n
  induction n with
  | zero =>
    intro left right hn h0 hr i hi h1 h2 h3
    omega
  | succ n ih =>
    intro left right hn h0 hr i hi h1 h2 h3
    rw [binarySearchGrade_eq]
    have hlr : ¬ left > right := by omega
    rw [if_neg hlr]
    have hmidnat : ((left + right) / 2).toNat < l.length := by omega
    have hget : l.getD ((left + right) / 2).toNat default = l[((left + right) / 2).toNat] :=
      List.getD_eq_getElem l default hmidnat
    by_cases heq : (l.getD ((left + right) / 2).toNat default).grade = target
    · rw [if_pos heq]
      refine ⟨_, rfl, ?_, heq⟩
      rw [hget]
      exact List.getElem_mem hmidnat
    · rw [if_neg heq]
      by_cases hlt : (l.getD ((left + right) / 2).toNat default).grade < target
      · rw [if_pos hlt]
        have himid : ((left + right) / 2).toNat < i := by
          by_contra hcon
          push_neg at hcon
          rcases lt_or_eq_of_le hcon with hltm | heqm
          · have hij := hmono i ((left + right) / 2).toNat hi hmidnat hltm
            rw [h3, ← hget] at hij
            omega
          · subst heqm
            rw [hget] at heq
            exact heq h3
        exact ih ((left + right) / 2 + 1) right (by omega) (by omega) hr i hi (by omega) h2 h3
      · rw [if_neg hlt]
        push_neg at hlt
        have himid : i < ((left + right) / 2).toNat := by
          by_contra hcon
          push_neg at hcon
          rcases lt_or_eq_of_le hcon with hltm | heqm
          · have hij := hmono ((left + right) / 2).toNat i hmidnat hi hltm
            rw [h3, ← hget] at hij
            omega
          · subst heqm
            rw [hget] at heq
            exact heq h3
        exact ih left ((left + right) / 2 - 1) (by omega) h0 (by omega) i hi h1 (by omega) h3

/-- C10.  On an array whose `grade` fields are strictly increasing,
`binarySearchGrade` — called as the source calls it, with `left = 0` and
`right = length − 1` — terminates (it is a total function here) and
returns a record of the array whose grade equals the target whenever one
exists, and `null` (`none`) when no record matches. -/
theorem claim_C10_binarySearchGrade (l : List GradeRec) (target : ℤ)
    (hsorted : l.Pairwise (fun a b => a.grade < b.grade)) :
    ((∃ g ∈ l, g.grade = target) →
      ∃ g, binarySearchGrade l target 0 ((l.length : ℤ) - 1) = some g
        ∧ g ∈ l ∧ g.grade = target)
    ∧ ((∀ g ∈ l, g.grade ≠ target) →
        binarySearchGrade l target 0 ((l.length : ℤ) - 1) = none) := by
  constructor
  · rintro ⟨g, hg, hgrade⟩
    obtain ⟨i, hi, hget⟩ := List.mem_iff_getElem.mp hg
    exact binarySearchGrade_complete l target hsorted l.length 0 ((l.length : ℤ) - 1)
      (by omega) le_rfl (by omega) i hi (by omega) (by omega) (by rw [hget]; exact hgrade)
  · intro hno
    cases hres : binarySearchGrade l target 0 ((l.length : ℤ) - 1) with
    | none => rfl
    | some g =>
      have hsound := binarySearchGrade_sound l target l.length 0 ((l.length : ℤ) - 1)
        (by omega) le_rfl (by omega) g hres
      exact absurd hsound.2 (hno g hsound.1)

/-- C10, witness: the theorem applied to the three-grade array
`[1, 3, 5]` searching for grade 3 (found) — and, through the second
conjunct, searching the same array for grade 4 would return `none`. -/
theorem claim_C10_witness :
    ∃ g, binarySearchGrade [⟨1, 10⟩, ⟨3, 20⟩, ⟨5, 30⟩] 3
        0 (([(⟨1, 10⟩ : GradeRec), ⟨3, 20⟩, ⟨5, 30⟩].length : ℤ) - 1) = some g
      ∧ g ∈ [(⟨1, 10⟩ : GradeRec), ⟨3, 20⟩, ⟨5, 30⟩] ∧ g.grade = 3 :=
  (claim_C10_binarySearchGrade [⟨1, 10⟩, ⟨3, 20⟩, ⟨5, 30⟩] 3
    (by simp)).1 ⟨⟨3, 20⟩, by simp, rfl⟩

end MathDungeon
